import Mathlib

/-!
Shallow embedding of the shift-extraction core of `backend/utils/excel.py`
(the grid heuristic-scanning engine: date normalization, shift-time parsing,
grid scanning and shift correlation), together with theorems settling the
frozen claims about it.

Python's ambient wall clock (`datetime.today()`) is threaded through as an
explicit `PyDate` parameter; Python exceptions (`ValueError` from failed
parses, `TypeError` from `re.match` on non-string values) are modelled with
`Except PyErr`; pandas cell values are modelled by the inductive type `Cell`
(`NaN`/missing, string, integer, native date).
-/

namespace XlsxToIcs

/-- The wall-clock date (`datetime.today()`), threaded explicitly. -/
structure PyDate where
  year : Nat
  month : Nat
  day : Nat
deriving DecidableEq, Repr

/-- Python exceptions that can escape the scanning code. -/
inductive PyErr where
  | valueError
  | typeError
deriving DecidableEq, Repr

/-- A pandas cell value: missing (`NaN`), a string, an integer, or a native
date value (what `openpyxl`/pandas produce for real date-typed cells). -/
inductive Cell where
  | empty
  | str (s : String)
  | num (n : Int)
  | date (y m d : Nat)
deriving DecidableEq, Repr

/-- `pd.isna(value)`: true exactly for the missing cell. -/
def pd_isna : Cell → Bool
  | Cell.empty => true
  | _ => false

/-- Lexicographic strict order on (year, month, day) triples, as used by
`datetime.date` comparison. -/
def dateTripleLt (a b : Nat × Nat × Nat) : Bool :=
  a.1 < b.1 || (a.1 == b.1 && (a.2.1 < b.2.1 || (a.2.1 == b.2.1 && a.2.2 < b.2.2)))

/-- Numeric value of a decimal digit character. -/
def digVal (c : Char) : Nat := c.toNat - '0'.toNat

/-- Numeric value of a list of decimal digit characters. -/
def digitsVal (ds : List Char) : Nat := ds.foldl (fun a c => a * 10 + digVal c) 0

/-- Python `str.zfill`: left-pad with zeros to the given width. -/
def zfill (w : Nat) (s : String) : String :=
  if w ≤ s.length then s else String.mk (List.replicate (w - s.length) '0') ++ s

/-- Whitespace characters recognised by Python `str.split()` / `str.strip()`. -/
def isPySpace (c : Char) : Bool :=
  c = ' ' || c = '\t' || c = '\n' || c = '\r' || c = '\x0b' || c = '\x0c'

/-- Split a character list at every whitespace character (keeping empty
pieces, which `pySplit` then discards). -/
def splitWsAux : List Char → List Char → List String
  | [], cur => [String.mk cur.reverse]
  | c :: cs, cur =>
      if isPySpace c then String.mk cur.reverse :: splitWsAux cs []
      else splitWsAux cs (c :: cur)

/-- Python `str.split()` with no argument: split on whitespace runs,
discarding empty pieces. -/
def pySplit (s : String) : List String :=
  (splitWsAux s.data []).filter (fun t => t ≠ "")

/-- Python `str.lower()` (ASCII case folding suffices for the scanned
tokens). -/
def pyToLower (s : String) : String := String.mk (s.data.map Char.toLower)

/-- Strip leading and trailing whitespace from a character list. -/
def stripChars (cs : List Char) : List Char :=
  ((cs.dropWhile isPySpace).reverse.dropWhile isPySpace).reverse

/-- Python `str.strip()`. -/
def pyStrip (s : String) : String := String.mk (stripChars s.data)

/-- `needle` occurs at the head of `hay`. -/
def matchesAt : List Char → List Char → Bool
  | [], _ => true
  | _ :: _, [] => false
  | c :: cs, d :: ds => c = d && matchesAt cs ds

/-- Python `s.startswith(p)`. -/
def strStartsWith (s p : String) : Bool := matchesAt p.data s.data

/-- Helper for substring search: does `needle` occur in `hay` at any offset? -/
def subAux (needle : List Char) : List Char → Bool
  | [] => matchesAt needle []
  | c :: cs => matchesAt needle (c :: cs) || subAux needle cs

/-- Python `needle in hay` on strings (substring containment). -/
def strContainsSub (hay needle : String) : Bool := subAux needle.data hay.data

/-- Python `str(value)` on a cell value (`str` of NaN / int / Timestamp). -/
def pyStr : Cell → String
  | Cell.empty => "nan"
  | Cell.str s => s
  | Cell.num n => toString n
  | Cell.date y m d =>
      zfill 4 (toString y) ++ "-" ++ zfill 2 (toString m) ++ "-" ++ zfill 2 (toString d)
        ++ " 00:00:00"

/-- Python truthiness of a cell value (`bool(value)`); note `bool(nan)` is
true in Python. -/
def pyTruthyCell : Cell → Bool
  | Cell.empty => true
  | Cell.str s => s ≠ ""
  | Cell.num n => n ≠ 0
  | Cell.date _ _ _ => true

/-- Gregorian leap-year test (as in `datetime`). -/
def isLeap (y : Nat) : Bool := (y % 4 == 0 && y % 100 != 0) || y % 400 == 0

/-- Number of days in a month (as validated by the `datetime` constructor). -/
def daysInMonth (y m : Nat) : Nat :=
  if m = 2 then (if isLeap y then 29 else 28)
  else if m = 4 ∨ m = 6 ∨ m = 9 ∨ m = 11 then 30
  else 31

/-- The regex `^\d{4}-\d{2}-\d{2}$` from `fix_date`, returning the numeric
(year, month, day) on a match. -/
def isoMatch (s : String) : Option (Nat × Nat × Nat) :=
  match s.data with
  | [y1, y2, y3, y4, '-', m1, m2, '-', d1, d2] =>
      if y1.isDigit && y2.isDigit && y3.isDigit && y4.isDigit
          && m1.isDigit && m2.isDigit && d1.isDigit && d2.isDigit then
        some (digitsVal [y1, y2, y3, y4], digitsVal [m1, m2], digitsVal [d1, d2])
      else none
  | _ => none

/-- The `month_map` lookup table of `fix_date` (case-sensitive, exactly the
keys present in the source dictionary literal). -/
def month_map : String → Option String
  | "Jan" => some "01"
  | "January" => some "01"
  | "Feb" => some "02"
  | "February" => some "02"
  | "Mar" => some "03"
  | "March" => some "03"
  | "Apr" => some "04"
  | "April" => some "04"
  | "May" => some "05"
  | "Jun" => some "06"
  | "June" => some "06"
  | "Jul" => some "07"
  | "July" => some "07"
  | "Aug" => some "08"
  | "August" => some "08"
  | "Sep" => some "09"
  | "September" => some "09"
  | "Oct" => some "10"
  | "October" => some "10"
  | "Nov" => some "11"
  | "November" => some "11"
  | "Dec" => some "12"
  | "December" => some "12"
  | _ => none

/-- `fix_date` from `excel.py`: convert a date token to `DD/MM/YYYY`.
The `APRIL FOOLS!` special case comes first; the ISO branch applies
`re.match` to the raw value, which raises `TypeError` on non-strings
(only `ValueError` is ever caught by `is_date_like`); the two-part branch
extracts day digits, looks up the month and infers the year from the
current month. -/
def fix_date (today : PyDate) (v : Cell) : Except PyErr String :=
  if v = Cell.str "APRIL FOOLS!" then Except.ok ("01/04/" ++ toString today.year)
  else
    match v with
    | Cell.str date_str =>
        match isoMatch date_str with
        | some (y, m, d) =>
            if 1 ≤ y ∧ 1 ≤ m ∧ m ≤ 12 ∧ 1 ≤ d ∧ d ≤ daysInMonth y m then
              Except.ok (zfill 2 (toString d) ++ "/" ++ zfill 2 (toString m) ++ "/"
                ++ zfill 4 (toString y))
            else Except.error PyErr.valueError
        | none =>
            match pySplit date_str with
            | [p0, p1] =>
                let day := String.mk (p0.data.filter Char.isDigit)
                if day = "" then Except.error PyErr.valueError
                else
                  match month_map p1 with
                  | none => Except.error PyErr.valueError
                  | some month_number =>
                      let year :=
                        if (today.month = 1 ∨ today.month = 2 ∨ today.month = 3)
                            ∧ month_number = "12" then today.year - 1
                        else if (today.month = 10 ∨ today.month = 11 ∨ today.month = 12)
                            ∧ month_number = "01" then today.year + 1
                        else today.year
                      Except.ok (zfill 2 day ++ "/" ++ month_number ++ "/" ++ toString year)
            | _ => Except.error PyErr.valueError
    | _ => Except.error PyErr.typeError

/-- One field of `strptime("%d/%m/%Y")`: a 1-2 digit number. A two-digit
digit pair must itself be a valid value (backtracking to one digit never
succeeds when the second character is a digit); a single digit must be
nonzero. -/
def parseDayOrMonth (maxv : Nat) : List Char → Option (Nat × List Char)
  | c1 :: c2 :: rest =>
      if c1.isDigit && c2.isDigit then
        let v := digVal c1 * 10 + digVal c2
        if 1 ≤ v ∧ v ≤ maxv then some (v, rest) else none
      else if c1.isDigit && 1 ≤ digVal c1 then some (digVal c1, c2 :: rest)
      else none
  | [c1] => if c1.isDigit && 1 ≤ digVal c1 then some (digVal c1, []) else none
  | [] => none

/-- `datetime.strptime(s, "%d/%m/%Y")`: day 1-31, month 1-12, exactly four
year digits, full consumption, and calendar validation by the `datetime`
constructor. Returns (day, month, year). -/
def parse_ddmmyyyy (s : String) : Option (Nat × Nat × Nat) :=
  match parseDayOrMonth 31 s.data with
  | some (d, '/' :: rest1) =>
      match parseDayOrMonth 12 rest1 with
      | some (m, '/' :: rest2) =>
          match rest2 with
          | [y1, y2, y3, y4] =>
              if y1.isDigit && y2.isDigit && y3.isDigit && y4.isDigit then
                let y := digitsVal [y1, y2, y3, y4]
                if 1 ≤ y ∧ d ≤ daysInMonth y m then some (d, m, y) else none
              else none
          | _ => none
      | _ => none
  | _ => none

/-- `is_date_in_past` from `excel.py`: parse `DD/MM/YYYY` (raising
`ValueError` on failure) and compare strictly against today's date. -/
def is_date_in_past (today : PyDate) (date_str : String) : Except PyErr Bool :=
  match parse_ddmmyyyy date_str with
  | none => Except.error PyErr.valueError
  | some (d, m, y) => Except.ok (dateTripleLt (y, m, d) (today.year, today.month, today.day))

/-- Longest run of leading decimal digits, with the remaining characters. -/
def takeDigits : List Char → List Char × List Char
  | [] => ([], [])
  | c :: cs =>
      if c.isDigit then
        let p := takeDigits cs
        (c :: p.1, p.2)
      else ([], c :: cs)

/-- One `\d{1,2}:` component of the shift-time regex: a digit run of length
one or two followed by a colon (a longer run can never match, even with
backtracking, because the character after a shortened run is a digit). -/
def parseHourTok (cs : List Char) : Option (List Char × List Char) :=
  let p := takeDigits cs
  if p.1.length = 1 ∨ p.1.length = 2 then
    match p.2 with
    | ':' :: rest2 => some (p.1, rest2)
    | _ => none
  else none

/-- One `\d{2}` minutes component: exactly the next two characters, both
digits. -/
def parseMinTok : List Char → Option (List Char × List Char)
  | c1 :: c2 :: rest => if c1.isDigit && c2.isDigit then some ([c1, c2], rest) else none
  | _ => none

/-- The regex `(\d{1,2}:\d{2})-(\d{1,2}:\d{2})` matched at the start of the
input (Python `re.match`, not end-anchored): numeric captured values plus
the unconsumed remainder. -/
def regexShiftMatchAux (cs : List Char) : Option ((Nat × Nat × Nat × Nat) × List Char) :=
  match parseHourTok cs with
  | none => none
  | some (h1ds, r1) =>
      match parseMinTok r1 with
      | none => none
      | some (m1ds, r2) =>
          match r2 with
          | '-' :: r3 =>
              match parseHourTok r3 with
              | none => none
              | some (h2ds, r4) =>
                  match parseMinTok r4 with
                  | none => none
                  | some (m2ds, r5) =>
                      some ((digitsVal h1ds, digitsVal m1ds, digitsVal h2ds, digitsVal m2ds), r5)
          | _ => none

/-- The `re.match` of `extract_shift_details` (trailing characters ignored). -/
def regexShiftMatch (s : String) : Option (Nat × Nat × Nat × Nat) :=
  (regexShiftMatchAux s.data).map (fun p => p.1)

/-- `extract_shift_details` from `excel.py`: match the time-range regex at
the start of the token, validate both times with `strptime("%H:%M")`
(hours 0-23, minutes 0-59; failures are caught, yielding `(None, None)`),
and return the re-formatted start time with
`duration = (end - start).total_seconds() / 3600`, adding 24 to a negative
duration (overnight wrap). Durations are modelled in `ℚ`; the source tests
`duration < 0`, which (3600 being positive) holds exactly when the
difference in seconds is negative, and `duration + 24` equals
`(diffSeconds + 86400) / 3600`; both are phrased below through the integer
difference and `mkRat` to keep the definition kernel-computable
(`mkRat_duration_eq` and `mkRat_duration_wrap_eq` prove the `ℚ`-level
readings). -/
def extract_shift_details (shift_time : String) : Option (String × ℚ) :=
  match regexShiftMatch shift_time with
  | none => none
  | some (h1, m1, h2, m2) =>
      if h1 ≤ 23 ∧ m1 ≤ 59 ∧ h2 ≤ 23 ∧ m2 ≤ 59 then
        let diffSeconds : Int :=
          ((h2 * 60 + m2 : Nat) : Int) * 60 - ((h1 * 60 + m1 : Nat) : Int) * 60
        some (zfill 2 (toString h1) ++ ":" ++ zfill 2 (toString m1),
          if diffSeconds < 0 then mkRat (diffSeconds + 86400) 3600
          else mkRat diffSeconds 3600)
      else none

/-- `extract_shift_details` applied to a raw cell value, as the correlator
does: `re.match` on a non-string raises `TypeError` outside the `try`. -/
def extract_shift_details_cell (v : Cell) : Except PyErr (Option (String × ℚ)) :=
  match v with
  | Cell.str s => Except.ok (extract_shift_details s)
  | _ => Except.error PyErr.typeError

/-- `is_date_like` from `excel.py`: `None` signal for `NaN`, otherwise run
`fix_date` catching only `ValueError` (a `TypeError` from a non-string
value propagates). -/
def is_date_like (today : PyDate) (v : Cell) : Except PyErr (Option String) :=
  if pd_isna v then Except.ok none
  else
    match fix_date today v with
    | Except.ok d => Except.ok (some d)
    | Except.error PyErr.valueError => Except.ok none
    | Except.error e => Except.error e

/-- `EXCLUDED_PREFIXES` from `excel.py`. -/
def EXCLUDED_PREFIXES : List String := ["open", "close", "flex"]

/-- `MAX_DATE_ROWS` from `excel.py`. -/
def MAX_DATE_ROWS : Nat := 5

/-- `DATE_ROW_OFFSET` from `excel.py`. -/
def DATE_ROW_OFFSET : Nat := 1

/-- `is_shift_time_like` from `excel.py`: non-NaN, stringified and
stripped, not starting (case-insensitively) with an excluded role word,
and fully matching `^\d{1,2}:\d{2}-\d{1,2}:\d{2}$`. -/
def is_shift_time_like (v : Cell) : Bool :=
  if pd_isna v then false
  else
    let value_str := pyStrip (pyStr v)
    if EXCLUDED_PREFIXES.any (fun p => strStartsWith (pyToLower value_str) p) then false
    else
      match regexShiftMatchAux value_str.data with
      | some (_, []) => true
      | _ => false

/-- A grid (one sheet's DataFrame): shape plus total cell lookup; every
access performed by the scanning code is in bounds for a rectangular
DataFrame, so out-of-range behaviour never matters. -/
structure Grid where
  nRows : Nat
  nCols : Nat
  cell : Nat → Nat → Cell

/-- A `(row, col, value)` triple from `find_dates` (the raw cell value is
stored, not the normalized date). -/
structure DatePos where
  row : Nat
  col : Nat
  val : Cell
deriving DecidableEq, Repr

/-- A `(row, col, value)` triple from `find_shift_times`. -/
structure ShiftTimePos where
  row : Nat
  col : Nat
  val : Cell
deriving DecidableEq, Repr

/-- One row of the `find_dates` scan over the given column indices. -/
def scanRowForDates (today : PyDate) (g : Grid) (row_idx : Nat) :
    List Nat → Except PyErr (List DatePos)
  | [] => Except.ok []
  | c :: cs =>
      match is_date_like today (g.cell row_idx c) with
      | Except.error e => Except.error e
      | Except.ok none => scanRowForDates today g row_idx cs
      | Except.ok (some _) =>
          match scanRowForDates today g row_idx cs with
          | Except.error e => Except.error e
          | Except.ok rest => Except.ok (⟨row_idx, c, g.cell row_idx c⟩ :: rest)

/-- Row loop of `find_dates`: scan header rows in order, stopping after the
first row that yields at least one date (earlier rows contributed nothing,
so the accumulated list is exactly that row's positions). -/
def find_dates_aux (today : PyDate) (g : Grid) : List Nat → Except PyErr (List DatePos)
  | [] => Except.ok []
  | r :: rs =>
      match scanRowForDates today g r (List.range g.nCols) with
      | Except.error e => Except.error e
      | Except.ok here => if here = [] then find_dates_aux today g rs else Except.ok here

/-- `find_dates` from `excel.py`. -/
def find_dates (today : PyDate) (g : Grid) : Except PyErr (List DatePos) :=
  find_dates_aux today g (List.range (min MAX_DATE_ROWS g.nRows))

/-- Stable insertion of a date position after all entries with column at
most its own (matching Python's stable `list.sort(key=col)` when elements
are inserted left to right). -/
def insertByCol (p : DatePos) : List DatePos → List DatePos
  | [] => [p]
  | q :: qs => if q.col ≤ p.col then q :: insertByCol p qs else p :: q :: qs

/-- Stable sort of date positions by column. -/
def sortByCol (l : List DatePos) : List DatePos :=
  l.foldl (fun acc p => insertByCol p acc) []

/-- Loop of `group_dates_into_sections`: start a new section whenever the
column gap from the previous position exceeds 1. -/
def groupAux : List DatePos → Nat → List DatePos → List (List DatePos) → List (List DatePos)
  | [], _, current, sections => if current = [] then sections else sections ++ [current]
  | p :: ps, last_col, current, sections =>
      if p.col - last_col > 1 then groupAux ps p.col [p] (sections ++ [current])
      else groupAux ps p.col (current ++ [p]) sections

/-- `group_dates_into_sections` from `excel.py`. -/
def group_dates_into_sections (date_positions : List DatePos) : List (List DatePos) :=
  if date_positions = [] then []
  else
    match sortByCol date_positions with
    | [] => []
    | first :: rest => groupAux (first :: rest) first.col [] []

/-- `range(max(0, start_col - 1), start_col + 1)` from `find_shift_times`;
the lower bound is clamped at 0 over the integers. -/
def shift_search_cols (start_col : Nat) : List Nat :=
  let lo : Nat := (max 0 ((start_col : Int) - 1)).toNat
  List.range' lo (start_col + 1 - lo)

/-- Inner column loop of `find_shift_times` over one row. -/
def rowShiftTimes (g : Grid) (row_idx : Nat) : List Nat → List ShiftTimePos
  | [] => []
  | c :: cs =>
      if is_shift_time_like (g.cell row_idx c)
      then ⟨row_idx, c, g.cell row_idx c⟩ :: rowShiftTimes g row_idx cs
      else rowShiftTimes g row_idx cs

/-- Row loop of `find_shift_times`. -/
def rowsShiftTimes (g : Grid) (cols : List Nat) : List Nat → List ShiftTimePos
  | [] => []
  | r :: rs => rowShiftTimes g r cols ++ rowsShiftTimes g cols rs

/-- `find_shift_times` from `excel.py`: scan every row over the clamped
column window around the section's start column. -/
def find_shift_times (g : Grid) (start_col : Nat) : List ShiftTimePos :=
  rowsShiftTimes g (shift_search_cols start_col) (List.range g.nRows)

/-- A returned shift dictionary: keys `Sheet`, `Date`, `Shift Time`
(the raw matched value), `Start Time`, `Duration`, `Name`. -/
structure ShiftRec where
  sheet : String
  date : String
  shiftTime : Cell
  startTime : String
  duration : ℚ
  name : String
deriving DecidableEq, Repr

/-- The Primary-DM emission loop of `find_shifts`: one record per matching
name, skipping a name when the shift time fails to parse. -/
def emitPrimary (sheet fixed_date : String) (stv : Cell) :
    List String → Except PyErr (List ShiftRec)
  | [] => Except.ok []
  | name :: rest =>
      match extract_shift_details_cell stv with
      | Except.error e => Except.error e
      | Except.ok none => emitPrimary sheet fixed_date stv rest
      | Except.ok (some sd) =>
          match emitPrimary sheet fixed_date stv rest with
          | Except.error e => Except.error e
          | Except.ok more =>
              Except.ok (⟨sheet, fixed_date, stv, sd.1, sd.2, name⟩ :: more)

/-- The fallback inner emission loop of `find_shifts`: emit a record and
mark the name found for each matching name whose time parses. -/
def emitNames (sheet fixed_date : String) (stv : Cell) :
    List String → List ShiftRec × List String → Except PyErr (List ShiftRec × List String)
  | [], acc => Except.ok acc
  | name :: rest, acc =>
      match extract_shift_details_cell stv with
      | Except.error e => Except.error e
      | Except.ok none => emitNames sheet fixed_date stv rest acc
      | Except.ok (some sd) =>
          emitNames sheet fixed_date stv rest
            (acc.1 ++ [⟨sheet, fixed_date, stv, sd.1, sd.2, name⟩], acc.2 ++ [name])

/-- The fallback scan of `find_shifts` over the shift-time positions:
skip rows at or above the date row, break once every searched name is in
`shift_found`, and test the cell at the date's column on each remaining
row. -/
def fallbackScan (g : Grid) (sheet fixed_date : String) (names : List String)
    (date_row date_col : Nat) : List ShiftTimePos → List String → Except PyErr (List ShiftRec)
  | [], _ => Except.ok []
  | p :: ps, shift_found =>
      if p.row ≤ date_row then
        fallbackScan g sheet fixed_date names date_row date_col ps shift_found
      else if names.all (fun name => shift_found.contains name) then Except.ok []
      else
        let cell_value := g.cell p.row date_col
        if pd_isna cell_value then
          fallbackScan g sheet fixed_date names date_row date_col ps shift_found
        else
          let cell_str := pyToLower (pyStr cell_value)
          let matching_names := names.filter
            (fun name => strContainsSub cell_str name && !(shift_found.contains name))
          match emitNames sheet fixed_date p.val matching_names ([], shift_found) with
          | Except.error e => Except.error e
          | Except.ok (recs, sf2) =>
              match fallbackScan g sheet fixed_date names date_row date_col ps sf2 with
              | Except.error e => Except.error e
              | Except.ok more => Except.ok (recs ++ more)

/-- The Primary-DM cell: one row below the date row, same column
(`None`, i.e. missing, when that row is off the grid). -/
def primaryValue (g : Grid) (dp : DatePos) : Cell :=
  if dp.row + DATE_ROW_OFFSET < g.nRows then g.cell (dp.row + DATE_ROW_OFFSET) dp.col
  else Cell.empty

/-- The searched names matching (case-insensitive substring) the
Primary-DM cell's text. -/
def primaryMatches (g : Grid) (names : List String) (dp : DatePos) : List String :=
  names.filter (fun name => strContainsSub (pyToLower (pyStr (primaryValue g dp))) name)

/-- The first shift-time position on the Primary-DM row, if any. -/
def primaryShiftTime (stp : List ShiftTimePos) (dp : DatePos) : Option Cell :=
  (stp.find? (fun p => p.row == dp.row + DATE_ROW_OFFSET)).map ShiftTimePos.val

/-- Per-date body of `find_shifts`: past-date filter, Primary-DM check on
the row one below the date (which, when it matches any name, emits records
and skips the fallback scan entirely), then the fallback scan. -/
def processDate (today : PyDate) (g : Grid) (sheet : String) (names : List String)
    (stp : List ShiftTimePos) (dp : DatePos) : Except PyErr (List ShiftRec) :=
  match fix_date today dp.val with
  | Except.error e => Except.error e
  | Except.ok fixed_date =>
      match is_date_in_past today fixed_date with
      | Except.error e => Except.error e
      | Except.ok true => Except.ok []
      | Except.ok false =>
          match primaryShiftTime stp dp with
          | some stv =>
              if !(pd_isna (primaryValue g dp)) && pyTruthyCell stv then
                match emitPrimary sheet fixed_date stv (primaryMatches g names dp) with
                | Except.error e => Except.error e
                | Except.ok recs =>
                    if primaryMatches g names dp = [] then
                      fallbackScan g sheet fixed_date names dp.row dp.col stp []
                    else Except.ok recs
              else fallbackScan g sheet fixed_date names dp.row dp.col stp []
          | none => fallbackScan g sheet fixed_date names dp.row dp.col stp []

/-- Date loop of a section in `find_shifts`. -/
def processDates (today : PyDate) (g : Grid) (sheet : String) (names : List String)
    (stp : List ShiftTimePos) : List DatePos → Except PyErr (List ShiftRec)
  | [] => Except.ok []
  | dp :: dps =>
      match processDate today g sheet names stp dp with
      | Except.error e => Except.error e
      | Except.ok r1 =>
          match processDates today g sheet names stp dps with
          | Except.error e => Except.error e
          | Except.ok r2 => Except.ok (r1 ++ r2)

/-- One section of `find_shifts`: find the shift times around the section's
start column, skipping the section when none exist. -/
def processSection (today : PyDate) (g : Grid) (sheet : String) (names : List String)
    (sec : List DatePos) : Except PyErr (List ShiftRec) :=
  match sec with
  | [] => Except.ok []
  | first :: rest =>
      let stp := find_shift_times g first.col
      if stp = [] then Except.ok []
      else processDates today g sheet names stp (first :: rest)

/-- Section loop of `find_shifts`. -/
def processSections (today : PyDate) (g : Grid) (sheet : String) (names : List String) :
    List (List DatePos) → Except PyErr (List ShiftRec)
  | [] => Except.ok []
  | s :: ss =>
      match processSection today g sheet names s with
      | Except.error e => Except.error e
      | Except.ok r1 =>
          match processSections today g sheet names ss with
          | Except.error e => Except.error e
          | Except.ok r2 => Except.ok (r1 ++ r2)

/-- One sheet of `find_shifts`: skip empty DataFrames and sheets without
dates, then process the grouped sections. -/
def processSheet (today : PyDate) (names : List String) (sheet : String) (g : Grid) :
    Except PyErr (List ShiftRec) :=
  if g.nRows = 0 ∨ g.nCols = 0 then Except.ok []
  else
    match find_dates today g with
    | Except.error e => Except.error e
    | Except.ok date_positions =>
        if date_positions = [] then Except.ok []
        else processSections today g sheet names (group_dates_into_sections date_positions)

/-- Sheet loop of `find_shifts`. -/
def processFrames (today : PyDate) (names : List String) :
    List (String × Grid) → Except PyErr (List ShiftRec)
  | [] => Except.ok []
  | sg :: rest =>
      match processSheet today names sg.1 sg.2 with
      | Except.error e => Except.error e
      | Except.ok r1 =>
          match processFrames today names rest with
          | Except.error e => Except.error e
          | Except.ok r2 => Except.ok (r1 ++ r2)

/-- `find_shifts` from `excel.py`: lowercase the searched names and scan
every sheet, accumulating records in discovery order. -/
def find_shifts (today : PyDate) (data_frames : List (String × Grid)) (names : List String) :
    Except PyErr (List ShiftRec) :=
  processFrames today (names.map pyToLower) data_frames

/-- Build a grid from a row-major list of rows (test scaffolding; column
count from the first row, missing cells empty). -/
def mkGrid (rows : List (List Cell)) : Grid where
  nRows := rows.length
  nCols := (rows.headD []).length
  cell := fun r c => (rows.getD r []).getD c Cell.empty

/-- Order on two normalized `DD/MM/YYYY` strings as calendar dates (false
when either fails to parse). -/
def dateLeB (a b : String) : Bool :=
  match parse_ddmmyyyy a, parse_ddmmyyyy b with
  | some (d1, m1, y1), some (d2, m2, y2) => !(dateTripleLt (y2, m2, d2) (y1, m1, d1))
  | _, _ => false

/-- The result list is sorted ascending by `normalizedDate`. -/
def sortedByDateB : List ShiftRec → Bool
  | [] => true
  | [_] => true
  | a :: b :: rest => dateLeB a.date b.date && sortedByDateB (b :: rest)

/-- Reference instant used by the concrete scenarios below. -/
def today0 : PyDate := ⟨2025, 4, 1⟩

/-- Sheet whose header dates appear in column order "3rd April",
"2nd April", with a fallback match for "alice" under both. -/
def unsortedGrid : Grid := mkGrid [
  [Cell.empty, Cell.str "3rd April", Cell.str "2nd April"],
  [Cell.empty, Cell.empty, Cell.empty],
  [Cell.str "9:00-17:00", Cell.str "alice", Cell.str "alice"]]

/-- Sheet where the same date token occupies two columns of one section and
"alice" matches under both. -/
def dupDateGrid : Grid := mkGrid [
  [Cell.empty, Cell.str "2nd April", Cell.str "2nd April"],
  [Cell.empty, Cell.empty, Cell.empty],
  [Cell.str "9:00-17:00", Cell.str "alice", Cell.str "alice"]]

/-- Sheet where "alice" occupies the Primary-DM row (with a shift time on
that row) and "bob" a later row with its own shift time. -/
def primGrid : Grid := mkGrid [
  [Cell.empty, Cell.str "2nd April"],
  [Cell.str "9:00-17:00", Cell.str "alice"],
  [Cell.str "10:00-18:00", Cell.str "bob"]]

/-- Sheet where the matched name cell embeds a parenthetical time while the
row's shift-time label differs. -/
def parenGrid : Grid := mkGrid [
  [Cell.empty, Cell.str "2nd April"],
  [Cell.empty, Cell.empty],
  [Cell.str "8:00-16:00", Cell.str "alice (9:00-13:00)"]]

/-- Well-formed single-match sheet (the spec's end-to-end example shape). -/
def basicGrid : Grid := mkGrid [
  [Cell.empty, Cell.str "2nd April", Cell.str "3rd April"],
  [Cell.empty, Cell.empty, Cell.empty],
  [Cell.str "9:00-17:00", Cell.str "Emilie", Cell.empty]]

/-- Two single-match sheets used to exhibit per-sheet concatenation. -/
def sheetA : Grid := mkGrid [
  [Cell.empty, Cell.str "3rd April"],
  [Cell.empty, Cell.empty],
  [Cell.str "9:00-17:00", Cell.str "alice"]]

/-- Second sheet of the concatenation scenario. -/
def sheetB : Grid := mkGrid [
  [Cell.empty, Cell.str "2nd April"],
  [Cell.empty, Cell.empty],
  [Cell.str "10:00-18:00", Cell.str "alice"]]

/-! ### Generic membership lemmas about the scanners -/

instance {ε α : Type} [DecidableEq ε] [DecidableEq α] : DecidableEq (Except ε α) :=
  fun a b =>
    match a, b with
    | Except.error e, Except.error f =>
        if h : e = f then isTrue (congrArg Except.error h)
        else isFalse (fun hc => h (Except.error.inj hc))
    | Except.ok x, Except.ok y =>
        if h : x = y then isTrue (congrArg Except.ok h)
        else isFalse (fun hc => h (Except.ok.inj hc))
    | Except.error _, Except.ok _ => isFalse (fun hc => Except.noConfusion hc)
    | Except.ok _, Except.error _ => isFalse (fun hc => Except.noConfusion hc)

/-- The `mkRat` phrasing of a duration equals the hours-level formula
`(end minutes - start minutes) / 60`. -/
theorem mkRat_duration_eq (a b : Nat) :
    (mkRat (((a : Nat) : Int) * 60 - ((b : Nat) : Int) * 60) 3600 : ℚ)
      = (((a : Nat) : ℚ) - ((b : Nat) : ℚ)) / 60 := by
  rw [Rat.mkRat_eq_div]
  push_cast
  field_simp
  ring

/-- The `mkRat` phrasing of an overnight-wrapped duration equals the
hours-level formula plus 24. -/
theorem mkRat_duration_wrap_eq (a b : Nat) :
    (mkRat ((((a : Nat) : Int) * 60 - ((b : Nat) : Int) * 60) + 86400) 3600 : ℚ)
      = (((a : Nat) : ℚ) - ((b : Nat) : ℚ)) / 60 + 24 := by
  rw [Rat.mkRat_eq_div]
  push_cast
  field_simp
  ring

theorem mem_rowShiftTimes {g : Grid} {r : Nat} {p : ShiftTimePos} :
    ∀ {cols : List Nat}, p ∈ rowShiftTimes g r cols → p.col ∈ cols := by
  intro cols
  induction cols with
  | nil => simp [rowShiftTimes]
  | cons c cs ih =>
      intro hp
      unfold rowShiftTimes at hp
      by_cases hc : is_shift_time_like (g.cell r c)
      · rw [if_pos hc] at hp
        rcases List.mem_cons.mp hp with h | h
        · subst h; exact List.mem_cons_self _ _
        · exact List.mem_cons_of_mem _ (ih h)
      · rw [if_neg hc] at hp
        exact List.mem_cons_of_mem _ (ih hp)

theorem mem_rowsShiftTimes {g : Grid} {cols : List Nat} {p : ShiftTimePos} :
    ∀ {rows : List Nat}, p ∈ rowsShiftTimes g cols rows → p.col ∈ cols := by
  intro rows
  induction rows with
  | nil => simp [rowsShiftTimes]
  | cons r rs ih =>
      intro hp
      unfold rowsShiftTimes at hp
      rcases List.mem_append.mp hp with h | h
      · exact mem_rowShiftTimes h
      · exact ih h

/-- C10: for a section starting in column 0 the shift-time search window is
clamped to exactly column 0 (no negative column index, which in pandas
would silently address the last column, is ever produced), and hence every
position found lies in column 0. -/
theorem find_shift_times_clamped_at_zero (g : Grid) :
    shift_search_cols 0 = [0] ∧
    ∀ p ∈ find_shift_times g 0, p.col = 0 := by
  refine ⟨by decide, ?_⟩
  intro p hp
  unfold find_shift_times at hp
  have h := mem_rowsShiftTimes hp
  rw [show shift_search_cols 0 = [0] from by decide] at h
  simpa using h

theorem find_shift_times_clamped_at_zero_witness :
    (⟨0, 0, Cell.str "9:00-17:00"⟩ : ShiftTimePos) ∈
      find_shift_times (mkGrid [[Cell.str "9:00-17:00"]]) 0 ∧
    (⟨0, 0, Cell.str "9:00-17:00"⟩ : ShiftTimePos).col = 0 :=
  ⟨by decide,
    (find_shift_times_clamped_at_zero (mkGrid [[Cell.str "9:00-17:00"]])).2
      ⟨0, 0, Cell.str "9:00-17:00"⟩ (by decide)⟩

/-- C2: exceptions do escape `find_shifts` on malformed input. A non-string
header cell (here an integer, as a native date cell also would) raises
`TypeError` out of `is_date_like`, and a date token whose digits form an
impossible calendar day passes `is_date_like` but raises `ValueError` from
`is_date_in_past` inside `find_shifts`. -/
theorem find_shifts_exception_escapes :
    find_shifts ⟨2025, 4, 1⟩ [("S", mkGrid [[Cell.num 42]])] ["alice"]
      = Except.error PyErr.typeError ∧
    find_shifts ⟨2025, 4, 1⟩
      [("S", mkGrid [[Cell.str "99th April"], [Cell.str "9:00-17:00"]])] ["alice"]
      = Except.error PyErr.valueError := by decide

/-- C3 counterexample: `extract_shift_details` performs no role-prefix
stripping; on "Open 09:00-17:00" it returns `(None, None)`, not the result
of the unprefixed token. -/
theorem extract_no_role_strip_cex :
    extract_shift_details "Open 09:00-17:00" = none ∧
    extract_shift_details "09:00-17:00" = some ("09:00", 8) := by decide

/-- C3 amended: the time-range grammar is matched at the start of the
token, so any token whose first character is not a digit yields
`(None, None)`; role-prefixed labels are instead rejected by
`is_shift_time_like`, whose excluded-word list is what the configured
role prefixes actually feed. -/
theorem extract_nondigit_start_none (c : Char) (cs : List Char)
    (h : c.isDigit = false) :
    extract_shift_details (String.mk (c :: cs)) = none ∧
    is_shift_time_like (Cell.str "Open 09:00-17:00") = false := by
  refine ⟨?_, by decide⟩
  simp [extract_shift_details, regexShiftMatch, regexShiftMatchAux, parseHourTok,
    takeDigits, h]

theorem extract_nondigit_start_none_witness :
    Char.isDigit 'O' = false ∧
    extract_shift_details (String.mk ('O' :: "pen 09:00-17:00".data)) = none :=
  ⟨by decide, (extract_nondigit_start_none 'O' "pen 09:00-17:00".data (by decide)).1⟩

/-- C4 counterexample: a parenthesized sub-range does not supersede the
outer token; the outer leading range governs, and in the fallback scan the
row's shift-time label is used even when the matched name cell embeds a
parenthetical time. -/
theorem extract_paren_ignored_cex :
    extract_shift_details "8:00-16:00 (9:00-13:00)" = some ("08:00", 8) ∧
    extract_shift_details "8:00-16:00 (9:00-13:00)" ≠ some ("09:00", 4) ∧
    find_shifts today0 [("S", parenGrid)] ["alice"]
      = Except.ok [⟨"S", "02/04/2025", Cell.str "8:00-16:00", "08:00", 8, "alice"⟩] := by
  decide

/-- C4 amended: extraction uses only the time range at the start of the
token, ignoring everything after it (in particular any parenthesized
sub-range), and the fallback scan always takes the row's shift-time label. -/
theorem extract_outer_range_governs :
    (∀ t : List Char,
      extract_shift_details
          (String.mk (['8', ':', '0', '0', '-', '1', '6', ':', '0', '0'] ++ t)) =
        some ("08:00", 8)) ∧
    find_shifts today0 [("S", parenGrid)] ["bob", "alice"]
      = Except.ok [⟨"S", "02/04/2025", Cell.str "8:00-16:00", "08:00", 8, "alice"⟩] := by
  refine ⟨fun t => ?_, by decide⟩
  unfold extract_shift_details
  rw [show regexShiftMatch (String.mk (['8', ':', '0', '0', '-', '1', '6', ':', '0', '0'] ++ t))
      = some (8, 0, 16, 0) from rfl]
  decide

theorem extract_outer_range_governs_witness :
    extract_shift_details (String.mk (['8', ':', '0', '0', '-', '1', '6', ':', '0', '0']
      ++ " (9:00-13:00)".data)) = some ("08:00", 8) :=
  extract_outer_range_governs.1 " (9:00-13:00)".data

/-- C9: on a token whose leading time-range has in-range hour and minute
values, `extract_shift_details` returns the zero-padded start time and the
duration in hours `(end - start)`, plus 24 when that is negative; the
overnight example "23:00-01:00" gives `("23:00", 2.0)`; any token the
grammar does not match yields `(None, None)` (no exception is modelled:
the function is total). -/
theorem extract_shift_details_spec :
    (∀ (s : String) (h1 m1 h2 m2 : Nat),
      regexShiftMatch s = some (h1, m1, h2, m2) →
      h1 ≤ 23 → m1 ≤ 59 → h2 ≤ 23 → m2 ≤ 59 →
      extract_shift_details s =
        some (zfill 2 (toString h1) ++ ":" ++ zfill 2 (toString m1),
          if ((h2 * 60 + m2 : Nat) : Int) < ((h1 * 60 + m1 : Nat) : Int)
          then (((h2 * 60 + m2 : Nat) : ℚ) - ((h1 * 60 + m1 : Nat) : ℚ)) / 60 + 24
          else (((h2 * 60 + m2 : Nat) : ℚ) - ((h1 * 60 + m1 : Nat) : ℚ)) / 60)) ∧
    extract_shift_details "23:00-01:00" = some ("23:00", 2) ∧
    (∀ s : String, regexShiftMatch s = none → extract_shift_details s = none) ∧
    extract_shift_details "n/a" = none := by
  refine ⟨?_, by decide, ?_, by decide⟩
  · intro s h1 m1 h2 m2 hm hh1 hm1 hh2 hm2
    simp only [extract_shift_details, hm]
    rw [if_pos ⟨hh1, hm1, hh2, hm2⟩]
    have hcond : (((h2 * 60 + m2 : Nat) : Int) * 60 - ((h1 * 60 + m1 : Nat) : Int) * 60 < 0)
        ↔ ((h2 * 60 + m2 : Nat) : Int) < ((h1 * 60 + m1 : Nat) : Int) := by omega
    by_cases hlt : ((h2 * 60 + m2 : Nat) : Int) < ((h1 * 60 + m1 : Nat) : Int)
    · rw [if_pos (hcond.mpr hlt), if_pos hlt, mkRat_duration_wrap_eq]
    · rw [if_neg (fun hc => hlt (hcond.mp hc)), if_neg hlt, mkRat_duration_eq]
  · intro s hm
    simp only [extract_shift_details, hm]

theorem extract_shift_details_spec_witness :
    regexShiftMatch "9:00-17:00" = some (9, 0, 17, 0) ∧
    extract_shift_details "9:00-17:00" = some ("09:00", 8) := by
  refine ⟨by decide, ?_⟩
  have h := extract_shift_details_spec.1 "9:00-17:00" 9 0 17 0 (by decide)
    (by decide) (by decide) (by decide) (by decide)
  rw [h, if_neg (by decide)]
  norm_num
  decide

/-- C8: year inference for two-part (yearless) date tokens: with `m` the
current month, the year is `currentYear - 1` when `m ∈ {1,2,3}` and the
token's month is December, `currentYear + 1` when `m ∈ {10,11,12}` and the
token's month is January, and `currentYear` otherwise; in particular
"15 Dec" in February maps to the previous year and "2 Jan" in November to
the next year. -/
theorem fix_date_year_inference (today : PyDate) (tok p0 p1 mm : String)
    (h1 : tok ≠ "APRIL FOOLS!") (h2 : isoMatch tok = none)
    (h3 : pySplit tok = [p0, p1])
    (h5 : String.mk (p0.data.filter Char.isDigit) ≠ "")
    (h6 : month_map p1 = some mm) :
    (fix_date today (Cell.str tok) =
      Except.ok (zfill 2 (String.mk (p0.data.filter Char.isDigit)) ++ "/" ++ mm ++ "/"
        ++ toString (
          if (today.month = 1 ∨ today.month = 2 ∨ today.month = 3) ∧ mm = "12"
          then today.year - 1
          else if (today.month = 10 ∨ today.month = 11 ∨ today.month = 12) ∧ mm = "01"
          then today.year + 1
          else today.year))) ∧
    fix_date ⟨2026, 2, 10⟩ (Cell.str "15 Dec") = Except.ok "15/12/2025" ∧
    fix_date ⟨2025, 11, 5⟩ (Cell.str "2 Jan") = Except.ok "02/01/2026" := by
  refine ⟨?_, by decide, by decide⟩
  unfold fix_date
  rw [if_neg (fun hc => h1 (Cell.str.inj hc))]
  simp only [h2, h3, h6]
  rw [if_neg h5]

theorem fix_date_year_inference_witness :
    ("15 Dec" : String) ≠ "APRIL FOOLS!" ∧
    isoMatch "15 Dec" = none ∧
    pySplit "15 Dec" = ["15", "Dec"] ∧
    String.mk (("15" : String).data.filter Char.isDigit) ≠ "" ∧
    month_map "Dec" = some "12" ∧
    fix_date ⟨2026, 2, 10⟩ (Cell.str "15 Dec") = Except.ok "15/12/2025" := by
  refine ⟨by decide, by decide, by decide, by decide, by decide, ?_⟩
  have h := (fix_date_year_inference ⟨2026, 2, 10⟩ "15 Dec" "15" "Dec" "12"
    (by decide) (by decide) (by decide) (by decide) (by decide)).1
  rw [h]
  decide

/-- C1 counterexample: `find_shifts` applies no final sort; with header
dates in column order "3rd April", "2nd April" the returned list is in
discovery order and not ascending by `normalizedDate`. -/
theorem find_shifts_unsorted_cex :
    (find_shifts today0 [("S", unsortedGrid)] ["alice"]).map sortedByDateB
      = Except.ok false ∧
    (find_shifts today0 [("S", unsortedGrid)] ["alice"]).map
        (fun rs => rs.map ShiftRec.date)
      = Except.ok ["03/04/2025", "02/04/2025"] := by decide

/-- C6 counterexample: when the same date token occurs at two date
positions of one section, the scan emits one record per position for the
same employee, so the same `(employeeName, normalizedDate)` pair occurs
twice in a single pass. -/
theorem find_shifts_duplicate_pair_cex :
    (find_shifts today0 [("S", dupDateGrid)] ["alice"]).map
        (fun rs => (rs.filter (fun r => r.name == "alice" && r.date == "02/04/2025")).length)
      = Except.ok 2 := by decide

/-! ### Characterizations of the emission loops -/

theorem emitPrimary_eq (sheet fd : String) (stv : Cell) (ns : List String) :
    emitPrimary sheet fd stv ns =
      match extract_shift_details_cell stv with
      | Except.error e => if ns = [] then Except.ok [] else Except.error e
      | Except.ok none => Except.ok []
      | Except.ok (some sd) =>
          Except.ok (ns.map (fun name => ⟨sheet, fd, stv, sd.1, sd.2, name⟩)) := by
  cases hx : extract_shift_details_cell stv with
  | error e =>
      cases ns with
      | nil => simp [emitPrimary, hx]
      | cons name rest => simp [emitPrimary, hx]
  | ok o =>
      cases o with
      | none =>
          induction ns with
          | nil => simp [emitPrimary, hx]
          | cons name rest ih => simpa [emitPrimary, hx] using ih
      | some sd =>
          induction ns with
          | nil => simp [emitPrimary, hx]
          | cons name rest ih => simp [emitPrimary, hx, ih]

theorem emitNames_eq (sheet fd : String) (stv : Cell) (ns : List String)
    (recs : List ShiftRec) (sf : List String) :
    emitNames sheet fd stv ns (recs, sf) =
      match extract_shift_details_cell stv with
      | Except.error e => if ns = [] then Except.ok (recs, sf) else Except.error e
      | Except.ok none => Except.ok (recs, sf)
      | Except.ok (some sd) =>
          Except.ok (recs ++ ns.map (fun name => ⟨sheet, fd, stv, sd.1, sd.2, name⟩),
            sf ++ ns) := by
  cases hx : extract_shift_details_cell stv with
  | error e =>
      cases ns with
      | nil => simp [emitNames, hx]
      | cons name rest => simp [emitNames, hx]
  | ok o =>
      cases o with
      | none =>
          induction ns generalizing recs sf with
          | nil => simp [emitNames, hx]
          | cons name rest ih => simpa [emitNames, hx] using ih recs sf
      | some sd =>
          induction ns generalizing recs sf with
          | nil => simp [emitNames, hx]
          | cons name rest ih =>
              simp [emitNames, hx, ih (recs ++ [_]) (sf ++ [name])]

/-- Everything the fallback scan emits carries the date being processed,
a searched name not yet satisfied, and (for a duplicate-free name set)
pairwise distinct names. -/
theorem fallbackScan_spec {g : Grid} {sheet fd : String} {names : List String}
    {dr dc : Nat} :
    ∀ {stp : List ShiftTimePos} {sf : List String} {out : List ShiftRec},
      fallbackScan g sheet fd names dr dc stp sf = Except.ok out →
      (∀ r ∈ out, r.date = fd ∧ r.name ∈ names ∧ r.name ∉ sf) ∧
      (names.Nodup → (out.map ShiftRec.name).Nodup) := by
  intro stp
  induction stp with
  | nil =>
      intro sf out h
      rw [fallbackScan] at h
      cases h
      simp
  | cons p ps ih =>
      intro sf out h
      simp only [fallbackScan] at h
      by_cases h1 : p.row ≤ dr
      · rw [if_pos h1] at h
        exact ih h
      rw [if_neg h1] at h
      by_cases h2 : (names.all (fun name => sf.contains name)) = true
      · rw [if_pos h2] at h
        cases h
        simp
      rw [if_neg h2] at h
      by_cases h3 : pd_isna (g.cell p.row dc) = true
      · rw [if_pos h3] at h
        exact ih h
      rw [if_neg h3] at h
      rw [emitNames_eq] at h
      cases hx : extract_shift_details_cell p.val with
      | error e =>
          simp only [hx] at h
          by_cases h4 : names.filter (fun name =>
              strContainsSub (pyToLower (pyStr (g.cell p.row dc))) name
              && !(sf.contains name)) = []
          · rw [if_pos h4] at h
            simp only [] at h
            cases hrec : fallbackScan g sheet fd names dr dc ps sf with
            | error e2 =>
                simp only [hrec] at h
                exact Except.noConfusion h
            | ok more =>
                simp only [hrec, List.nil_append] at h
                obtain rfl : more = out := Except.ok.inj h
                exact ih hrec
          · rw [if_neg h4] at h
            cases h
      | ok o =>
          cases o with
          | none =>
              simp only [hx] at h
              cases hrec : fallbackScan g sheet fd names dr dc ps sf with
              | error e2 =>
                  simp only [hrec] at h
                  exact Except.noConfusion h
              | ok more =>
                  simp only [hrec, List.nil_append] at h
                  obtain rfl : more = out := Except.ok.inj h
                  exact ih hrec
          | some sd =>
              simp only [hx, List.nil_append] at h
              cases hrec : fallbackScan g sheet fd names dr dc ps
                  (sf ++ names.filter (fun name =>
                    strContainsSub (pyToLower (pyStr (g.cell p.row dc))) name
                    && !(sf.contains name))) with
              | error e2 =>
                  simp only [hrec] at h
                  exact Except.noConfusion h
              | ok more =>
                  simp only [hrec] at h
                  obtain rfl :
                      (names.filter (fun name =>
                        strContainsSub (pyToLower (pyStr (g.cell p.row dc))) name
                        && !(sf.contains name))).map
                          (fun name => (⟨sheet, fd, p.val, sd.1, sd.2, name⟩ : ShiftRec))
                        ++ more = out := Except.ok.inj h
                  have hih := ih hrec
                  constructor
                  · intro r hr
                    rcases List.mem_append.mp hr with hl | hrr
                    · rcases List.mem_map.mp hl with ⟨name, hname, rfl⟩
                      have hf := List.mem_filter.mp hname
                      have hnotsf : name ∉ sf := by
                        have h5 := hf.2
                        simp only [Bool.and_eq_true, Bool.not_eq_true'] at h5
                        intro hmem
                        have : sf.contains name = true := by
                          simp only [List.contains]
                          exact List.elem_eq_true_of_mem hmem
                        rw [this] at h5
                        exact Bool.noConfusion h5.2
                      exact ⟨rfl, hf.1, hnotsf⟩
                    · have := hih.1 r hrr
                      exact ⟨this.1, this.2.1, fun hmem => this.2.2 (List.mem_append.mpr
                        (Or.inl hmem))⟩
                  · intro hnd
                    rw [List.map_append, List.map_map]
                    have hcomp : (ShiftRec.name ∘ fun name =>
                        (⟨sheet, fd, p.val, sd.1, sd.2, name⟩ : ShiftRec)) = id := rfl
                    rw [hcomp, List.map_id]
                    refine List.Nodup.append (hnd.filter _) (hih.2 hnd) ?_
                    intro a ha hamem
                    rcases List.mem_map.mp hamem with ⟨r, hrmem, hrname⟩
                    have := hih.1 r hrmem
                    exact this.2.2 (List.mem_append.mpr (Or.inr (hrname ▸ ha)))

/-- Every record a single date position emits passed the past-date filter
and names a searched employee; for a duplicate-free name set the emitted
names are pairwise distinct. -/
theorem processDate_spec {today : PyDate} {g : Grid} {sheet : String}
    {names : List String} {stp : List ShiftTimePos} {dp : DatePos} {out : List ShiftRec}
    (h : processDate today g sheet names stp dp = Except.ok out) :
    (∀ r ∈ out, is_date_in_past today r.date = Except.ok false ∧ r.name ∈ names) ∧
    (names.Nodup → (out.map ShiftRec.name).Nodup) := by
  unfold processDate at h
  cases hfd : fix_date today dp.val with
  | error e =>
      simp only [hfd] at h
      exact Except.noConfusion h
  | ok fd =>
      simp only [hfd] at h
      cases hp : is_date_in_past today fd with
      | error e =>
          simp only [hp] at h
          exact Except.noConfusion h
      | ok b =>
          simp only [hp] at h
          cases b with
          | true =>
              obtain rfl : ([] : List ShiftRec) = out := Except.ok.inj h
              simp
          | false =>
              have fromFallback :
                  ∀ {sf : List String},
                    fallbackScan g sheet fd names dp.row dp.col stp sf = Except.ok out →
                    (∀ r ∈ out, is_date_in_past today r.date = Except.ok false
                      ∧ r.name ∈ names) ∧
                    (names.Nodup → (out.map ShiftRec.name).Nodup) := by
                intro sf hfb
                have hf := fallbackScan_spec hfb
                exact ⟨fun r hr => ⟨by rw [(hf.1 r hr).1]; exact hp, (hf.1 r hr).2.1⟩,
                  hf.2⟩
              cases hst : primaryShiftTime stp dp with
              | none =>
                  simp only [hst] at h
                  exact fromFallback h
              | some stv =>
                  simp only [hst] at h
                  by_cases hcond :
                      (!(pd_isna (primaryValue g dp)) && pyTruthyCell stv) = true
                  · rw [if_pos hcond] at h
                    cases hemit : emitPrimary sheet fd stv (primaryMatches g names dp) with
                    | error e =>
                        simp only [hemit] at h
                        exact Except.noConfusion h
                    | ok recs =>
                        simp only [hemit] at h
                        by_cases h4 : primaryMatches g names dp = []
                        · rw [if_pos h4] at h
                          exact fromFallback h
                        · rw [if_neg h4] at h
                          obtain rfl : recs = out := Except.ok.inj h
                          rw [emitPrimary_eq] at hemit
                          cases hx : extract_shift_details_cell stv with
                          | error e =>
                              simp only [hx, if_neg h4] at hemit
                              exact Except.noConfusion hemit
                          | ok o =>
                              cases o with
                              | none =>
                                  simp only [hx] at hemit
                                  obtain rfl : ([] : List ShiftRec) = recs :=
                                    Except.ok.inj hemit
                                  simp
                              | some sd =>
                                  simp only [hx] at hemit
                                  obtain rfl := (Except.ok.inj hemit).symm
                                  constructor
                                  · intro r hr
                                    rcases List.mem_map.mp hr with ⟨name, hname, rfl⟩
                                    simp only [primaryMatches] at hname
                                    exact ⟨hp, (List.mem_filter.mp hname).1⟩
                                  · intro hnd
                                    rw [List.map_map]
                                    have hcomp : (ShiftRec.name ∘ fun name =>
                                        (⟨sheet, fd, stv, sd.1, sd.2, name⟩ : ShiftRec))
                                        = id := rfl
                                    rw [hcomp, List.map_id]
                                    exact hnd.filter _
                  · rw [if_neg hcond] at h
                    exact fromFallback h

/-- Propagation of the past-date guarantee through the date loop. -/
theorem processDates_past {today : PyDate} {g : Grid} {sheet : String}
    {names : List String} {stp : List ShiftTimePos} :
    ∀ {l : List DatePos} {out : List ShiftRec},
      processDates today g sheet names stp l = Except.ok out →
      ∀ r ∈ out, is_date_in_past today r.date = Except.ok false := by
  intro l
  induction l with
  | nil =>
      intro out h r hr
      rw [processDates] at h
      obtain rfl : ([] : List ShiftRec) = out := Except.ok.inj h
      cases hr
  | cons dp dps ih =>
      intro out h r hr
      rw [processDates] at h
      cases hd : processDate today g sheet names stp dp with
      | error e => simp only [hd] at h; exact Except.noConfusion h
      | ok r1 =>
          simp only [hd] at h
          cases ht : processDates today g sheet names stp dps with
          | error e => simp only [ht] at h; exact Except.noConfusion h
          | ok r2 =>
              simp only [ht] at h
              obtain rfl : r1 ++ r2 = out := Except.ok.inj h
              rcases List.mem_append.mp hr with hl | hrr
              · exact ((processDate_spec hd).1 r hl).1
              · exact ih ht r hrr

/-- Propagation of the past-date guarantee through one section. -/
theorem processSection_past {today : PyDate} {g : Grid} {sheet : String}
    {names : List String} {sec : List DatePos} {out : List ShiftRec}
    (h : processSection today g sheet names sec = Except.ok out) :
    ∀ r ∈ out, is_date_in_past today r.date = Except.ok false := by
  intro r hr
  cases sec with
  | nil =>
      rw [processSection] at h
      obtain rfl : ([] : List ShiftRec) = out := Except.ok.inj h
      cases hr
  | cons first rest =>
      simp only [processSection] at h
      by_cases hstp : find_shift_times g first.col = []
      · rw [if_pos hstp] at h
        obtain rfl : ([] : List ShiftRec) = out := Except.ok.inj h
        cases hr
      · rw [if_neg hstp] at h
        exact processDates_past h r hr

/-- Propagation of the past-date guarantee through the section loop. -/
theorem processSections_past {today : PyDate} {g : Grid} {sheet : String}
    {names : List String} :
    ∀ {l : List (List DatePos)} {out : List ShiftRec},
      processSections today g sheet names l = Except.ok out →
      ∀ r ∈ out, is_date_in_past today r.date = Except.ok false := by
  intro l
  induction l with
  | nil =>
      intro out h r hr
      rw [processSections] at h
      obtain rfl : ([] : List ShiftRec) = out := Except.ok.inj h
      cases hr
  | cons s ss ih =>
      intro out h r hr
      rw [processSections] at h
      cases hd : processSection today g sheet names s with
      | error e => simp only [hd] at h; exact Except.noConfusion h
      | ok r1 =>
          simp only [hd] at h
          cases ht : processSections today g sheet names ss with
          | error e => simp only [ht] at h; exact Except.noConfusion h
          | ok r2 =>
              simp only [ht] at h
              obtain rfl : r1 ++ r2 = out := Except.ok.inj h
              rcases List.mem_append.mp hr with hl | hrr
              · exact processSection_past hd r hl
              · exact ih ht r hrr

/-- Propagation of the past-date guarantee through one sheet. -/
theorem processSheet_past {today : PyDate} {names : List String} {sheet : String}
    {g : Grid} {out : List ShiftRec}
    (h : processSheet today names sheet g = Except.ok out) :
    ∀ r ∈ out, is_date_in_past today r.date = Except.ok false := by
  intro r hr
  unfold processSheet at h
  by_cases hemp : g.nRows = 0 ∨ g.nCols = 0
  · rw [if_pos hemp] at h
    obtain rfl : ([] : List ShiftRec) = out := Except.ok.inj h
    cases hr
  · rw [if_neg hemp] at h
    cases hfd : find_dates today g with
    | error e => simp only [hfd] at h; exact Except.noConfusion h
    | ok date_positions =>
        simp only [hfd] at h
        by_cases hdp : date_positions = []
        · rw [if_pos hdp] at h
          obtain rfl : ([] : List ShiftRec) = out := Except.ok.inj h
          cases hr
        · rw [if_neg hdp] at h
          exact processSections_past h r hr

/-- Propagation of the past-date guarantee through the sheet loop. -/
theorem processFrames_past {today : PyDate} {names : List String} :
    ∀ {l : List (String × Grid)} {out : List ShiftRec},
      processFrames today names l = Except.ok out →
      ∀ r ∈ out, is_date_in_past today r.date = Except.ok false := by
  intro l
  induction l with
  | nil =>
      intro out h r hr
      rw [processFrames] at h
      obtain rfl : ([] : List ShiftRec) = out := Except.ok.inj h
      cases hr
  | cons sg rest ih =>
      intro out h r hr
      rw [processFrames] at h
      cases hd : processSheet today names sg.1 sg.2 with
      | error e => simp only [hd] at h; exact Except.noConfusion h
      | ok r1 =>
          simp only [hd] at h
          cases ht : processFrames today names rest with
          | error e => simp only [ht] at h; exact Except.noConfusion h
          | ok r2 =>
              simp only [ht] at h
              obtain rfl : r1 ++ r2 = out := Except.ok.inj h
              rcases List.mem_append.mp hr with hl | hrr
              · exact processSheet_past hd r hl
              · exact ih ht r hrr

/-- C7: whenever `find_shifts` returns a result list, every record's
`normalizedDate` passes the past-date check against the reference instant:
the implemented policy is strict less-than, so dates strictly before the
reference date are filtered out and the reference date itself is kept. -/
theorem find_shifts_no_past_dates (today : PyDate) (frames : List (String × Grid))
    (names : List String) (rs : List ShiftRec)
    (h : find_shifts today frames names = Except.ok rs) :
    ∀ r ∈ rs, is_date_in_past today r.date = Except.ok false := by
  unfold find_shifts at h
  exact processFrames_past h

theorem find_shifts_no_past_dates_witness :
    find_shifts today0 [("S", basicGrid)] ["emilie"]
      = Except.ok [⟨"S", "02/04/2025", Cell.str "9:00-17:00", "09:00", 8, "emilie"⟩] ∧
    is_date_in_past today0 "02/04/2025" = Except.ok false := by
  refine ⟨by decide, ?_⟩
  have h := find_shifts_no_past_dates today0 [("S", basicGrid)] ["emilie"]
    [⟨"S", "02/04/2025", Cell.str "9:00-17:00", "09:00", 8, "emilie"⟩] (by decide)
    ⟨"S", "02/04/2025", Cell.str "9:00-17:00", "09:00", 8, "emilie"⟩ (by decide)
  exact h

/-- C5 counterexample: a Primary-DM match for "alice" suppresses the
fallback scan for every searched employee on that date; "bob", who is
found by the fallback scan when searched alone, gets no record when
searched together with "alice". -/
theorem primary_skips_other_names_cex :
    find_shifts today0 [("S", primGrid)] ["alice", "bob"]
      = Except.ok [⟨"S", "02/04/2025", Cell.str "9:00-17:00", "09:00", 8, "alice"⟩] ∧
    find_shifts today0 [("S", primGrid)] ["bob"]
      = Except.ok [⟨"S", "02/04/2025", Cell.str "10:00-18:00", "10:00", 8, "bob"⟩] := by
  decide

/-- C5 amended: when the Primary-DM check matches at least one searched
employee on a date (the cell below the date is non-missing, a shift time
sits on that row, and the match list is nonempty), the fallback scan is
skipped entirely for that date: every record the date emits names one of
the primary-matched employees, so no other searched employee is scanned in
step 3. -/
theorem primary_match_skips_fallback (today : PyDate) (g : Grid) (sheet : String)
    (names : List String) (stp : List ShiftTimePos) (dp : DatePos)
    (fd : String) (stv : Cell) (out : List ShiftRec)
    (hfd : fix_date today dp.val = Except.ok fd)
    (hp : is_date_in_past today fd = Except.ok false)
    (hst : primaryShiftTime stp dp = some stv)
    (hcond : (!(pd_isna (primaryValue g dp)) && pyTruthyCell stv) = true)
    (hmatch : primaryMatches g names dp ≠ [])
    (h : processDate today g sheet names stp dp = Except.ok out) :
    ∀ r ∈ out, r.name ∈ primaryMatches g names dp := by
  unfold processDate at h
  simp only [hfd, hp, hst] at h
  rw [if_pos hcond] at h
  cases hemit : emitPrimary sheet fd stv (primaryMatches g names dp) with
  | error e =>
      simp only [hemit] at h
      exact Except.noConfusion h
  | ok recs =>
      simp only [hemit] at h
      rw [if_neg hmatch] at h
      obtain rfl : recs = out := Except.ok.inj h
      rw [emitPrimary_eq] at hemit
      cases hx : extract_shift_details_cell stv with
      | error e =>
          simp only [hx, if_neg hmatch] at hemit
          exact Except.noConfusion hemit
      | ok o =>
          cases o with
          | none =>
              simp only [hx] at hemit
              obtain rfl : ([] : List ShiftRec) = recs := Except.ok.inj hemit
              intro r hr
              cases hr
          | some sd =>
              simp only [hx] at hemit
              obtain rfl := (Except.ok.inj hemit).symm
              intro r hr
              rcases List.mem_map.mp hr with ⟨name, hname, rfl⟩
              exact hname

theorem primary_match_skips_fallback_witness :
    processDate today0 primGrid "S" ["alice", "bob"]
        [⟨1, 0, Cell.str "9:00-17:00"⟩, ⟨2, 0, Cell.str "10:00-18:00"⟩]
        ⟨0, 1, Cell.str "2nd April"⟩
      = Except.ok [⟨"S", "02/04/2025", Cell.str "9:00-17:00", "09:00", 8, "alice"⟩] ∧
    (⟨"S", "02/04/2025", Cell.str "9:00-17:00", "09:00", 8, "alice"⟩ : ShiftRec).name
      ∈ primaryMatches primGrid ["alice", "bob"] ⟨0, 1, Cell.str "2nd April"⟩ := by
  refine ⟨by decide, ?_⟩
  exact primary_match_skips_fallback today0 primGrid "S" ["alice", "bob"]
    [⟨1, 0, Cell.str "9:00-17:00"⟩, ⟨2, 0, Cell.str "10:00-18:00"⟩]
    ⟨0, 1, Cell.str "2nd April"⟩ "02/04/2025" (Cell.str "9:00-17:00")
    [⟨"S", "02/04/2025", Cell.str "9:00-17:00", "09:00", 8, "alice"⟩]
    (by decide) (by decide) (by decide) (by decide) (by decide) (by decide)
    ⟨"S", "02/04/2025", Cell.str "9:00-17:00", "09:00", 8, "alice"⟩ (by decide)

/-- A record list whose names are pairwise distinct contains at most one
entry matching any fixed (name, date) pair. -/
theorem length_filter_le_one_of_nodup_names {out : List ShiftRec}
    (hn : (out.map ShiftRec.name).Nodup) (n d : String) :
    (out.filter (fun r => r.name == n && r.date == d)).length ≤ 1 := by
  induction out with
  | nil => simp
  | cons r rs ih =>
      rw [List.map_cons, List.nodup_cons] at hn
      by_cases hc : (r.name == n && r.date == d) = true
      · rw [List.filter_cons, if_pos hc]
        have hrn : r.name = n := by
          simp only [Bool.and_eq_true, beq_iff_eq] at hc
          exact hc.1
        have hnil : rs.filter (fun x => x.name == n && x.date == d) = [] := by
          rw [List.filter_eq_nil_iff]
          intro x hx hxc
          simp only [Bool.and_eq_true, beq_iff_eq] at hxc
          exact hn.1 (hrn ▸ hxc.1 ▸ List.mem_map_of_mem ShiftRec.name hx)
        rw [hnil]
        simp
      · rw [List.filter_cons, if_neg hc]
        exact ih hn.2

/-- C6 amended: within a single date position the scan emits at most one
record per (employeeName, normalizedDate) pair for a duplicate-free name
set (the primary loop emits once per matched name and the fallback scan
tracks satisfied names); the same pair can recur across date positions or
sheets, as the counterexample shows. -/
theorem processDate_at_most_one_per_pair (today : PyDate) (g : Grid) (sheet : String)
    (names : List String) (stp : List ShiftTimePos) (dp : DatePos) (out : List ShiftRec)
    (hnd : names.Nodup) (h : processDate today g sheet names stp dp = Except.ok out)
    (n d : String) :
    (out.filter (fun r => r.name == n && r.date == d)).length ≤ 1 :=
  length_filter_le_one_of_nodup_names ((processDate_spec h).2 hnd) n d

theorem processDate_at_most_one_per_pair_witness :
    (["alice"] : List String).Nodup ∧
    processDate today0 dupDateGrid "S" ["alice"] [⟨2, 0, Cell.str "9:00-17:00"⟩]
        ⟨0, 1, Cell.str "2nd April"⟩
      = Except.ok [⟨"S", "02/04/2025", Cell.str "9:00-17:00", "09:00", 8, "alice"⟩] ∧
    (([⟨"S", "02/04/2025", Cell.str "9:00-17:00", "09:00", 8, "alice"⟩] : List ShiftRec).filter
        (fun r => r.name == "alice" && r.date == "02/04/2025")).length ≤ 1 := by
  refine ⟨by decide, by decide, ?_⟩
  exact processDate_at_most_one_per_pair today0 dupDateGrid "S" ["alice"]
    [⟨2, 0, Cell.str "9:00-17:00"⟩] ⟨0, 1, Cell.str "2nd April"⟩
    [⟨"S", "02/04/2025", Cell.str "9:00-17:00", "09:00", 8, "alice"⟩]
    (by decide) (by decide) "alice" "02/04/2025"

/-- C1 amended: `find_shifts` applies no final sort; records are returned
in discovery order, the concatenation of per-sheet results in input sheet
order. -/
theorem find_shifts_discovery_order (today : PyDate) (t : String) (g : Grid)
    (rest : List (String × Grid)) (names : List String) (r1 r2 : List ShiftRec)
    (h1 : processSheet today (names.map pyToLower) t g = Except.ok r1)
    (h2 : find_shifts today rest names = Except.ok r2) :
    find_shifts today ((t, g) :: rest) names = Except.ok (r1 ++ r2) := by
  unfold find_shifts at h2 ⊢
  rw [processFrames]
  simp only [h1, h2]

theorem find_shifts_discovery_order_witness :
    processSheet today0 (["alice"].map pyToLower) "A" sheetA
      = Except.ok [⟨"A", "03/04/2025", Cell.str "9:00-17:00", "09:00", 8, "alice"⟩] ∧
    find_shifts today0 [("B", sheetB)] ["alice"]
      = Except.ok [⟨"B", "02/04/2025", Cell.str "10:00-18:00", "10:00", 8, "alice"⟩] ∧
    find_shifts today0 [("A", sheetA), ("B", sheetB)] ["alice"]
      = Except.ok ([⟨"A", "03/04/2025", Cell.str "9:00-17:00", "09:00", 8, "alice"⟩]
          ++ [⟨"B", "02/04/2025", Cell.str "10:00-18:00", "10:00", 8, "alice"⟩]) := by
  refine ⟨by decide, by decide, ?_⟩
  exact find_shifts_discovery_order today0 "A" sheetA [("B", sheetB)] ["alice"]
    [⟨"A", "03/04/2025", Cell.str "9:00-17:00", "09:00", 8, "alice"⟩]
    [⟨"B", "02/04/2025", Cell.str "10:00-18:00", "10:00", 8, "alice"⟩]
    (by decide) (by decide)

end XlsxToIcs
